import Mathlib

/-!
# Verification of the circle resource-sharing service

Shallow embedding of the claim-scheduling core of the service: the
SQL-backed claims path (models `ResourceModel` / `ClaimModel`, the Express
middleware and the claim routes) and the in-memory mutex borrow-request
path (`StorageService`).  Identifiers (`Nat`) stand for UUIDs and
timestamps (`Int`) for absolute instants; SQL rows are lists of records.
-/

namespace CircleSql

/-- Claim status column: `'active' | 'completed' | 'cancelled'`. -/
inductive ClaimStatus where
  | active
  | completed
  | cancelled
deriving DecidableEq

/-- A row of the `claims` table (fields relevant to scheduling). -/
structure Claim where
  id : Nat
  resource_id : Nat
  user_id : Nat
  start_time : Int
  end_time : Int
  status : ClaimStatus
deriving DecidableEq

/-- A row of the `resources` table (fields relevant to the claim routes). -/
structure Resource where
  id : Nat
  circle_id : Nat
  created_by : Nat
  is_active : Bool
deriving DecidableEq

/-- A row of the `circle_members` table. -/
structure Membership where
  circle_id : Nat
  user_id : Nat
  is_active : Bool
deriving DecidableEq

/-- The SQL database state seen by the claim routes.  `nextId` models the
fresh-UUID generator (`randomUUID`): each insert takes `nextId` as its id
and bumps the counter. -/
structure SqlState where
  users : List Nat
  memberships : List Membership
  resources : List Resource
  claims : List Claim
  nextId : Nat
deriving DecidableEq

/-- The three-disjunct SQL predicate of `ResourceModel.isAvailable`:
`(start_time <= $2 AND end_time > $2) OR (start_time < $3 AND end_time >= $3)
OR (start_time >= $2 AND end_time <= $3)` where `$2 = s`, `$3 = e`. -/
def overlapSQL (c : Claim) (s e : Int) : Bool :=
  (c.start_time ≤ s && c.end_time > s) ||
  (c.start_time < e && c.end_time ≥ e) ||
  (c.start_time ≥ s && c.end_time ≤ e)

/-- Row filter of the `isAvailable` query: same resource, status `'active'`,
not the excluded claim id (`AND id != $4` when present), and the SQL
overlap disjunction. -/
def blocksQuery (rid : Nat) (s e : Int) (excl : Option Nat) (c : Claim) : Bool :=
  c.resource_id == rid && c.status == ClaimStatus.active &&
    (match excl with
     | some x => c.id != x
     | none => true) &&
    overlapSQL c s e

/-- `ResourceModel.isAvailable`: true iff the conflict query returns no rows. -/
def isAvailable (claims : List Claim) (rid : Nat) (s e : Int) (excl : Option Nat) : Bool :=
  !(claims.any (blocksQuery rid s e excl))

/-- `UserModel.findById` as used by the `requireUser` middleware. -/
def userExists (st : SqlState) (uid : Nat) : Bool :=
  st.users.contains uid

/-- `ResourceModel.findById`: `WHERE id = $1 AND is_active = true`. -/
def findResource (st : SqlState) (rid : Nat) : Option Resource :=
  st.resources.find? (fun r => r.id == rid && r.is_active)

/-- `ClaimModel.findById`: `WHERE id = $1`. -/
def findClaim (st : SqlState) (cid : Nat) : Option Claim :=
  st.claims.find? (fun c => c.id == cid)

/-- `CircleModel.isMember`: `WHERE circle_id = $1 AND user_id = $2 AND
is_active = true` returns at least one row. -/
def isMember (st : SqlState) (circleId uid : Nat) : Bool :=
  st.memberships.any (fun m => m.circle_id == circleId && m.user_id == uid && m.is_active)

/-- Outcome of `POST /api/resources/:id/claims`. -/
inductive ClaimResponse where
  | created (c : Claim)
  | unauthorized
  | resourceNotFound
  | conflict
deriving DecidableEq

/-- The claim-creation route `POST /api/resources/:id/claims`:
`requireUser` (401), then `validateBody(CreateClaimSchema)` — the schema
checks only that `start_time`/`end_time` are datetime strings and imposes
no ordering between them, so it never rejects a well-typed instant pair —
then `ResourceModel.findById` (404), `ResourceModel.isAvailable` without
exclusion (409), and finally `ClaimModel.create` with status `'active'`. -/
def requestClaim (st : SqlState) (rid uid : Nat) (s e : Int) : ClaimResponse × SqlState :=
  if !(userExists st uid) then (.unauthorized, st)
  else
    match findResource st rid with
    | none => (.resourceNotFound, st)
    | some _ =>
      if isAvailable st.claims rid s e none then
        let c : Claim :=
          { id := st.nextId, resource_id := rid, user_id := uid,
            start_time := s, end_time := e, status := .active }
        (.created c, { st with claims := c :: st.claims, nextId := st.nextId + 1 })
      else (.conflict, st)

/-- Outcome of `POST /api/claims/:id/return`. -/
inductive ReturnResponse where
  | ok (c : Claim)
  | unauthorized
  | notFound
  | forbidden
deriving DecidableEq

/-- The return route `POST /api/claims/:id/return`: `requireUser` (401),
`ClaimModel.findById` (404), owner check (403), then
`ClaimModel.returnClaim` which runs
`UPDATE claims SET status = 'completed', end_time = NOW() WHERE id = $2`
with no status precondition and no guard on `NOW()` versus `start_time`. -/
def returnClaimRoute (st : SqlState) (cid uid : Nat) (now : Int) : ReturnResponse × SqlState :=
  if !(userExists st uid) then (.unauthorized, st)
  else
    match findClaim st cid with
    | none => (.notFound, st)
    | some c =>
      if c.user_id ≠ uid then (.forbidden, st)
      else
        (.ok { c with status := .completed, end_time := now },
         { st with claims :=
            st.claims.map (fun x =>
              if x.id == cid then { x with status := ClaimStatus.completed, end_time := now }
              else x) })

/-- Outcome of `DELETE /api/claims/:id`. -/
inductive CancelResponse where
  | noContent
  | unauthorized
  | notFound
  | forbidden
deriving DecidableEq

/-- The cancel route `DELETE /api/claims/:id`: `requireUser` (401),
`ClaimModel.findById` (404), owner check (403), then `ClaimModel.cancel`
which runs `UPDATE claims SET status = 'cancelled' WHERE id = $2` with no
status precondition, answering 204. -/
def cancelClaimRoute (st : SqlState) (cid uid : Nat) : CancelResponse × SqlState :=
  if !(userExists st uid) then (.unauthorized, st)
  else
    match findClaim st cid with
    | none => (.notFound, st)
    | some c =>
      if c.user_id ≠ uid then (.forbidden, st)
      else
        (.noContent,
         { st with claims :=
            st.claims.map (fun x =>
              if x.id == cid then { x with status := ClaimStatus.cancelled }
              else x) })

/-- For intervals that are proper (`start < end` on both sides), the SQL
three-disjunct test coincides with the standard closed-open overlap test. -/
lemma overlapSQL_iff_of_proper (c : Claim) (s e : Int)
    (hse : s < e) (hc : c.start_time < c.end_time) :
    overlapSQL c s e = true ↔ (c.start_time < e ∧ s < c.end_time) := by
  simp only [overlapSQL, Bool.or_eq_true, Bool.and_eq_true, decide_eq_true_eq]
  omega

/-- One row passes the conflict filter iff it is an active claim on the
resource, not the excluded one, and genuinely overlaps the proper
requested interval. -/
lemma blocksQuery_true_iff (c : Claim) (rid : Nat) (s e : Int) (excl : Option Nat)
    (hse : s < e) (hc : c.start_time < c.end_time) :
    blocksQuery rid s e excl c = true ↔
      (c.resource_id = rid ∧ c.status = ClaimStatus.active ∧
        (∀ x, excl = some x → c.id ≠ x) ∧
        (c.start_time < e ∧ s < c.end_time)) := by
  cases excl with
  | none =>
    simp only [blocksQuery, Bool.and_eq_true, beq_iff_eq,
      overlapSQL_iff_of_proper c s e hse hc, Bool.and_true]
    constructor
    · rintro ⟨⟨h1, h2⟩, h3⟩
      refine ⟨h1, h2, ?_, h3⟩
      intro x hx
      cases hx
    · rintro ⟨h1, h2, _, h3⟩
      exact ⟨⟨h1, h2⟩, h3⟩
  | some x0 =>
    simp only [blocksQuery, Bool.and_eq_true, beq_iff_eq, bne_iff_ne, ne_eq,
      overlapSQL_iff_of_proper c s e hse hc]
    constructor
    · rintro ⟨⟨⟨h1, h2⟩, h3⟩, h4⟩
      refine ⟨h1, h2, ?_, h4⟩
      intro x hx
      cases hx
      exact h3
    · rintro ⟨h1, h2, h3, h4⟩
      exact ⟨⟨⟨h1, h2⟩, h3 x0 rfl⟩, h4⟩

/-- C1: for a proper requested interval and a table whose claims all have
`start_time < end_time`, `isAvailable(resourceId, start, end, excludeClaimId?)`
returns true iff no active claim on that resource (other than the excluded
one) overlaps `[start, end)` under the rule NOT (`end <= s` OR `start >= e`);
adjacent intervals are never conflicts, even though the implementation uses
a three-disjunct SQL predicate. -/
theorem isAvailable_iff_no_active_overlap
    (claims : List Claim) (rid : Nat) (s e : Int) (excl : Option Nat)
    (hse : s < e) (hwf : ∀ c ∈ claims, c.start_time < c.end_time) :
    isAvailable claims rid s e excl = true ↔
      ∀ c ∈ claims, c.resource_id = rid → c.status = ClaimStatus.active →
        (∀ x, excl = some x → c.id ≠ x) →
        (e ≤ c.start_time ∨ s ≥ c.end_time) := by
  simp only [isAvailable, Bool.not_eq_true', List.any_eq_false]
  constructor
  · intro h c hmem h1 h2 h3
    have hb := h c hmem
    have hwfc := hwf c hmem
    by_contra hcon
    push_neg at hcon
    have : blocksQuery rid s e excl c = true := by
      rw [blocksQuery_true_iff c rid s e excl hse hwfc]
      exact ⟨h1, h2, h3, by omega⟩
    exact hb this
  · intro h c hmem
    have hwfc := hwf c hmem
    rw [blocksQuery_true_iff c rid s e excl hse hwfc]
    rintro ⟨h1, h2, h3, h4, h5⟩
    have := h c hmem h1 h2 h3
    omega

/-- Witness for C1 at a concrete table: one active claim on resource 5 over
`[0, 10)`; the adjacent request `[10, 20)` is reported available. -/
theorem isAvailable_iff_no_active_overlap_witness :
    isAvailable [⟨1, 5, 2, 0, 10, ClaimStatus.active⟩] 5 10 20 none = true := by
  rw [isAvailable_iff_no_active_overlap
    [⟨1, 5, 2, 0, 10, ClaimStatus.active⟩] 5 10 20 none (by decide) (by decide)]
  decide

/-- Two claim rows are compatible when, if they sit on the same resource and
are both `'active'`, their closed-open intervals share no instant (they fail
the spec's overlap rule `s1 < e2 AND s2 < e1`). -/
def ClaimCompat (c1 c2 : Claim) : Prop :=
  c1.resource_id = c2.resource_id →
  c1.status = ClaimStatus.active → c2.status = ClaimStatus.active →
  ¬(c1.start_time < c2.end_time ∧ c2.start_time < c1.end_time)

instance : DecidableRel ClaimCompat := fun c1 c2 => by
  unfold ClaimCompat
  infer_instance

/-- The per-resource scheduling invariant: active claims are pairwise
non-overlapping. -/
def ActiveNoOverlap (st : SqlState) : Prop :=
  List.Pairwise ClaimCompat st.claims

instance (st : SqlState) : Decidable (ActiveNoOverlap st) := by
  unfold ActiveNoOverlap
  exact List.instDecidablePairwise st.claims

/-- A genuine closed-open overlap always trips the SQL three-disjunct test
(also for degenerate stored intervals). -/
lemma overlapSQL_of_overlap (c : Claim) (s e : Int)
    (h : c.start_time < e ∧ s < c.end_time) : overlapSQL c s e = true := by
  simp only [overlapSQL, Bool.or_eq_true, Bool.and_eq_true, decide_eq_true_eq]
  omega

/-- Mapping a row transformation that either keeps a row or de-activates it
preserves pairwise compatibility. -/
lemma pairwise_compat_map (f : Claim → Claim)
    (hf : ∀ x, f x = x ∨ (f x).status ≠ ClaimStatus.active)
    (l : List Claim) (h : List.Pairwise ClaimCompat l) :
    List.Pairwise ClaimCompat (l.map f) := by
  rw [List.pairwise_map]
  refine h.imp ?_
  intro a b hab
  rcases hf a with ha | ha
  · rcases hf b with hb | hb
    · rw [ha, hb]
      exact hab
    · intro _ _ h2
      exact absurd h2 hb
  · intro _ h1 _
    exact absurd h1 ha

/-- Each claim route preserves the scheduling invariant. -/
inductive SqlStep : SqlState → SqlState → Prop where
  | createClaim (st : SqlState) (rid uid : Nat) (s e : Int) :
      SqlStep st (requestClaim st rid uid s e).2
  | doReturn (st : SqlState) (cid uid : Nat) (now : Int) :
      SqlStep st (returnClaimRoute st cid uid now).2
  | doCancel (st : SqlState) (cid uid : Nat) :
      SqlStep st (cancelClaimRoute st cid uid).2

/-- Any interleaving of the three claim routes, starting from a database
satisfying the invariant. -/
def SqlReachable : SqlState → SqlState → Prop :=
  Relation.ReflTransGen SqlStep

lemma sqlStep_preserves_invariant (st st' : SqlState)
    (hstep : SqlStep st st') (hinv : ActiveNoOverlap st) : ActiveNoOverlap st' := by
  cases hstep with
  | createClaim rid uid s e =>
    unfold ActiveNoOverlap requestClaim
    by_cases hu : userExists st uid
    · simp only [hu, Bool.not_true, Bool.false_eq_true, if_false]
      cases hr : findResource st rid with
      | none => exact hinv
      | some r =>
        simp only
        by_cases ha : isAvailable st.claims rid s e none
        · simp only [ha, if_true]
          rw [List.pairwise_cons]
          refine ⟨?_, hinv⟩
          intro c hc hres h1 h2 hover
          have hany : st.claims.any (blocksQuery rid s e none) = false := by
            have := congrArg (fun b => !b) (show isAvailable st.claims rid s e none = true from ha)
            simpa [isAvailable] using ha
          rw [List.any_eq_false] at hany
          refine hany c hc ?_
          simp only [blocksQuery, Bool.and_eq_true, beq_iff_eq]
          refine ⟨⟨⟨?_, ?_⟩, trivial⟩, ?_⟩
          · simpa using hres.symm
          · simpa using h2
          · exact overlapSQL_of_overlap c s e (by simpa using And.intro hover.2 hover.1)
        · simp only [ha, if_false]
          exact hinv
    · simp only [hu, Bool.not_false, if_true]
      exact hinv
  | doReturn cid uid now =>
    unfold ActiveNoOverlap returnClaimRoute
    by_cases hu : userExists st uid
    · simp only [hu, Bool.not_true, Bool.false_eq_true, if_false]
      cases hc : findClaim st cid with
      | none => exact hinv
      | some c =>
        simp only
        by_cases huid : c.user_id = uid
        · simp only [huid, ne_eq, not_true_eq_false, if_false]
          refine pairwise_compat_map _ ?_ st.claims hinv
          intro x
          by_cases hx : x.id == cid
          · right
            simp [hx]
          · left
            simp [hx]
        · simp only [huid, ne_eq, not_false_eq_true, if_true]
          exact hinv
    · simp only [hu, Bool.not_false, if_true]
      exact hinv
  | doCancel cid uid =>
    unfold ActiveNoOverlap cancelClaimRoute
    by_cases hu : userExists st uid
    · simp only [hu, Bool.not_true, Bool.false_eq_true, if_false]
      cases hc : findClaim st cid with
      | none => exact hinv
      | some c =>
        simp only
        by_cases huid : c.user_id = uid
        · simp only [huid, ne_eq, not_true_eq_false, if_false]
          refine pairwise_compat_map _ ?_ st.claims hinv
          intro x
          by_cases hx : x.id == cid
          · right
            simp [hx]
          · left
            simp [hx]
        · simp only [huid, ne_eq, not_false_eq_true, if_true]
          exact hinv
    · simp only [hu, Bool.not_false, if_true]
      exact hinv

/-- C2: in every database state reachable by any sequential interleaving of
the exposed claim operations (creation guarded by `isAvailable`, return,
cancel) from a state satisfying the invariant (in particular a fresh
database), the `'active'` claims of each resource are pairwise
non-overlapping under closed-open `[start, end)` semantics. -/
theorem reachable_active_claims_no_overlap (st st' : SqlState)
    (hreach : SqlReachable st st') (hinv : ActiveNoOverlap st) :
    ActiveNoOverlap st' := by
  induction hreach with
  | refl => exact hinv
  | tail _ hstep ih => exact sqlStep_preserves_invariant _ _ hstep ih

/-- A sample one-user, one-resource database with no claims. -/
def sampleState : SqlState :=
  { users := [1], memberships := [⟨3, 1, true⟩],
    resources := [⟨10, 3, 1, true⟩], claims := [], nextId := 20 }

/-- Witness for C2: after two adjacent claim creations and a cancellation
starting from the sample database, the invariant holds. -/
theorem reachable_active_claims_no_overlap_witness :
    ActiveNoOverlap (cancelClaimRoute (requestClaim
      (requestClaim sampleState 10 1 0 10).2 10 1 10 20).2 20 1).2 :=
  reachable_active_claims_no_overlap sampleState _
    (Relation.ReflTransGen.head (SqlStep.createClaim sampleState 10 1 0 10)
      (Relation.ReflTransGen.head
        (SqlStep.createClaim (requestClaim sampleState 10 1 0 10).2 10 1 10 20)
        (Relation.ReflTransGen.single
          (SqlStep.doCancel (requestClaim
            (requestClaim sampleState 10 1 0 10).2 10 1 10 20).2 20 1))))
    (by decide)

/-- A one-user, one-resource database holding one active claim of user 1
over `[100, 200)`. -/
def stWithClaim : SqlState :=
  { users := [1], memberships := [⟨3, 1, true⟩],
    resources := [⟨10, 3, 1, true⟩],
    claims := [⟨7, 10, 1, 100, 200, ClaimStatus.active⟩], nextId := 21 }

/-- C3 (divergence): a claim-creation request whose interval is inverted
(`end_time = 50 < 100 = start_time`) on an existing active resource passes
the schema, passes the availability query, answers 201 and stores an
active claim with `end_time < start_time` — no `ValidationError` occurs. -/
theorem requestClaim_accepts_inverted_interval :
    (requestClaim sampleState 10 1 100 50).1 =
      ClaimResponse.created ⟨20, 10, 1, 100, 50, ClaimStatus.active⟩ ∧
    ⟨20, 10, 1, 100, 50, ClaimStatus.active⟩ ∈
      (requestClaim sampleState 10 1 100 50).2.claims ∧
    ¬((100 : Int) < 50) := by decide

/-- C4 (divergence): cancelling the same claim twice: the first
`DELETE /api/claims/:id` answers 204 and sets status `'cancelled'`; the
second, by the same user, also answers 204 and leaves the database
unchanged — it silently succeeds instead of failing with a
status-conflict error. -/
theorem cancelClaim_twice_silently_succeeds :
    (cancelClaimRoute stWithClaim 7 1).1 = CancelResponse.noContent ∧
    findClaim (cancelClaimRoute stWithClaim 7 1).2 7 =
      some ⟨7, 10, 1, 100, 200, ClaimStatus.cancelled⟩ ∧
    (cancelClaimRoute (cancelClaimRoute stWithClaim 7 1).2 7 1).1 =
      CancelResponse.noContent ∧
    (cancelClaimRoute (cancelClaimRoute stWithClaim 7 1).2 7 1).2 =
      (cancelClaimRoute stWithClaim 7 1).2 := by decide

/-- C5 (divergence): returning the active claim `[100, 200)` at instant 50
(before its scheduled start) succeeds and stores
`end_time = 50 < 100 = start_time`: the return is neither rejected nor
clamped. -/
theorem returnClaim_before_start_stores_inverted_interval :
    (returnClaimRoute stWithClaim 7 1 50).1 =
      ReturnResponse.ok ⟨7, 10, 1, 100, 50, ClaimStatus.completed⟩ ∧
    findClaim (returnClaimRoute stWithClaim 7 1 50).2 7 =
      some ⟨7, 10, 1, 100, 50, ClaimStatus.completed⟩ ∧
    (50 : Int) < 100 := by decide

/-- A database where user 1 exists but is not a member of circle 3, the
circle owning resource 10. -/
def stNonMember : SqlState :=
  { users := [1, 2], memberships := [⟨3, 2, true⟩],
    resources := [⟨10, 3, 2, true⟩], claims := [], nextId := 50 }

/-- C6 (divergence): user 1 is no active member of the resource's circle,
yet the claim-creation route — which never consults `CircleModel.isMember`
— answers 201 and stores the claim instead of failing with 403. -/
theorem requestClaim_ignores_membership :
    isMember stNonMember 3 1 = false ∧
    (requestClaim stNonMember 10 1 0 10).1 =
      ClaimResponse.created ⟨50, 10, 1, 0, 10, ClaimStatus.active⟩ ∧
    ⟨50, 10, 1, 0, 10, ClaimStatus.active⟩ ∈
      (requestClaim stNonMember 10 1 0 10).2.claims := by decide

/-- A cancelled (or otherwise non-active) row never passes the conflict
filter. -/
lemma blocksQuery_false_of_nonactive (rid : Nat) (s e : Int) (excl : Option Nat)
    (c : Claim) (h : c.status ≠ ClaimStatus.active) :
    blocksQuery rid s e excl c = false := by
  simp [blocksQuery, h]

/-- Evaluation of the claim-creation route when the user exists, the
resource is found and the interval is free. -/
lemma requestClaim_created (st : SqlState) (rid uid : Nat) (s e : Int)
    (r : Resource) (hu : userExists st uid = true)
    (hr : findResource st rid = some r)
    (ha : isAvailable st.claims rid s e none = true) :
    requestClaim st rid uid s e =
      (ClaimResponse.created ⟨st.nextId, rid, uid, s, e, ClaimStatus.active⟩,
       { st with
          claims := ⟨st.nextId, rid, uid, s, e, ClaimStatus.active⟩ :: st.claims,
          nextId := st.nextId + 1 }) := by
  unfold requestClaim
  simp only [hu, Bool.not_true, Bool.false_eq_true, if_false, hr, ha, if_true]

/-- C7: if a claim creation for `[t0, t1)` succeeds and that claim is then
cancelled by its owner, an identical claim creation on the same resource
succeeds again — the cancelled claim no longer participates in the overlap
check. -/
theorem cancel_frees_interval (st : SqlState) (rid uid : Nat) (t0 t1 : Int)
    (c : Claim) (st1 st2 : SqlState)
    (h1 : requestClaim st rid uid t0 t1 = (ClaimResponse.created c, st1))
    (h2 : cancelClaimRoute st1 c.id uid = (CancelResponse.noContent, st2)) :
    ∃ c2 st3, requestClaim st2 rid uid t0 t1 = (ClaimResponse.created c2, st3) := by
  unfold requestClaim at h1
  by_cases hu : userExists st uid
  swap
  · simp [hu] at h1
  simp only [hu, Bool.not_true, Bool.false_eq_true, if_false] at h1
  cases hr : findResource st rid with
  | none =>
    rw [hr] at h1
    simp at h1
  | some r =>
    rw [hr] at h1
    by_cases ha : isAvailable st.claims rid t0 t1 none
    swap
    · simp [ha] at h1
    simp only [ha, if_true, Prod.mk.injEq, ClaimResponse.created.injEq] at h1
    obtain ⟨hc, hst1⟩ := h1
    subst hst1
    subst hc
    unfold cancelClaimRoute at h2
    simp only [userExists] at hu
    simp only [userExists, hu, Bool.not_true, Bool.false_eq_true, if_false,
      findClaim, List.find?_cons, beq_self_eq_true, ne_eq, not_true_eq_false,
      if_false, Prod.mk.injEq, true_and] at h2
    subst h2
    have havail : isAvailable (List.map
        (fun x => if x.id == st.nextId then { x with status := ClaimStatus.cancelled } else x)
        ({ id := st.nextId, resource_id := rid, user_id := uid, start_time := t0,
           end_time := t1, status := ClaimStatus.active } :: st.claims))
        rid t0 t1 none = true := by
      simp only [isAvailable, Bool.not_eq_true', List.any_eq_false]
      intro x hx
      rw [List.mem_map] at hx
      obtain ⟨y, hy, hfy⟩ := hx
      rw [List.mem_cons] at hy
      cases hy with
      | inl hhead =>
        subst hhead
        subst hfy
        simp only [beq_self_eq_true, if_true]
        simp [blocksQuery]
      | inr htail =>
        subst hfy
        by_cases hid : y.id == st.nextId
        · simp only [hid, if_true]
          simp [blocksQuery]
        · simp only [hid, Bool.false_eq_true, if_false]
          have hall : ∀ x ∈ st.claims, blocksQuery rid t0 t1 none x = false := by
            simpa [isAvailable] using ha
          simp [hall y htail]
    exact ⟨_, _, requestClaim_created
      { users := st.users, memberships := st.memberships, resources := st.resources,
        claims := List.map
          (fun x => if x.id == st.nextId then { x with status := ClaimStatus.cancelled } else x)
          ({ id := st.nextId, resource_id := rid, user_id := uid, start_time := t0,
             end_time := t1, status := ClaimStatus.active } :: st.claims),
        nextId := st.nextId + 1 }
      rid uid t0 t1 r hu hr havail⟩

/-- Witness for C7: create `[0, 10)` on the sample database, cancel it,
create `[0, 10)` again. -/
theorem cancel_frees_interval_witness :
    ∃ c2 st3,
      requestClaim (cancelClaimRoute (requestClaim sampleState 10 1 0 10).2 20 1).2
        10 1 0 10 = (ClaimResponse.created c2, st3) :=
  cancel_frees_interval sampleState 10 1 0 10
    ⟨20, 10, 1, 0, 10, ClaimStatus.active⟩
    (requestClaim sampleState 10 1 0 10).2
    (cancelClaimRoute (requestClaim sampleState 10 1 0 10).2 20 1).2
    (by decide) (by decide)

end CircleSql

namespace CircleMutex

/-- `BorrowRequestStatus` of the in-memory `StorageService` model. -/
inductive BorrowStatus where
  | pending
  | approved
  | denied
  | returned
  | cancelled
deriving DecidableEq

/-- A `User` entry of the in-memory store. -/
structure MUser where
  id : Nat
  name : String
deriving DecidableEq

/-- A `Circle` entry: members are stored inline in the `users` array. -/
structure MCircle where
  id : Nat
  name : String
  users : List MUser
  createdBy : Nat
deriving DecidableEq

/-- A `Resource` entry with the single-borrower availability flag. -/
structure MResource where
  id : Nat
  name : String
  description : String
  ownerId : Nat
  circleId : Nat
  isAvailable : Bool
  currentBorrowerId : Option Nat
deriving DecidableEq

/-- A `BorrowRequest` entry (fields relevant to the workflow). -/
structure MBorrowRequest where
  id : Nat
  resourceId : Nat
  circleId : Nat
  requestedBy : Nat
  status : BorrowStatus
  respondedBy : Option Nat
deriving DecidableEq

/-- The four `Map`s of `StorageService`, as id-keyed association lists,
plus the fresh-UUID counter (`generateId`). -/
structure MState where
  circles : List MCircle
  users : List MUser
  resources : List MResource
  borrowRequests : List MBorrowRequest
  nextId : Nat
deriving DecidableEq

/-- `Map.get` on the circles map. -/
def getCircle (st : MState) (k : Nat) : Option MCircle :=
  st.circles.find? (fun c => c.id == k)

/-- `Map.get` on the resources map. -/
def getResource (st : MState) (k : Nat) : Option MResource :=
  st.resources.find? (fun r => r.id == k)

/-- `Map.get` on the borrow-requests map. -/
def getRequest (st : MState) (k : Nat) : Option MBorrowRequest :=
  st.borrowRequests.find? (fun r => r.id == k)

/-- `Map.set` keyed by `.id`: replace when the key is present, append
otherwise. -/
def putCircle (l : List MCircle) (v : MCircle) : List MCircle :=
  if l.any (fun c => c.id == v.id) then l.map (fun c => if c.id == v.id then v else c)
  else l ++ [v]

/-- `Map.set` on the users map. -/
def putUser (l : List MUser) (v : MUser) : List MUser :=
  if l.any (fun u => u.id == v.id) then l.map (fun u => if u.id == v.id then v else u)
  else l ++ [v]

/-- `Map.set` on the resources map. -/
def putResource (l : List MResource) (v : MResource) : List MResource :=
  if l.any (fun r => r.id == v.id) then l.map (fun r => if r.id == v.id then v else r)
  else l ++ [v]

/-- `Map.set` on the borrow-requests map. -/
def putRequest (l : List MBorrowRequest) (v : MBorrowRequest) : List MBorrowRequest :=
  if l.any (fun r => r.id == v.id) then l.map (fun r => if r.id == v.id then v else r)
  else l ++ [v]

/-- `StorageService.createCircle`: creates the creator user and a circle
with the creator as first member (two `generateId` calls). -/
def createCircle (st : MState) (name creatorName : String) : MCircle × MState :=
  let creator : MUser := { id := st.nextId, name := creatorName }
  let circ : MCircle :=
    { id := st.nextId + 1, name := name, users := [creator], createdBy := st.nextId }
  (circ,
   { st with
      users := putUser st.users creator,
      circles := putCircle st.circles circ,
      nextId := st.nextId + 2 })

/-- `StorageService.addUserToCircle`: circle must exist and the user name
must be new in the circle. -/
def addUserToCircle (st : MState) (circleId : Nat) (userName : String) :
    Except String MCircle × MState :=
  match getCircle st circleId with
  | none => (.error ("Circle not found"), st)
  | some circ =>
    if circ.users.any (fun u => u.name == userName) then
      (.error ("User name already exists in this circle"), st)
    else
      let newUser : MUser := { id := st.nextId, name := userName }
      let circle2 := { circ with users := circ.users ++ [newUser] }
      (.ok circle2,
       { st with
          users := putUser st.users newUser,
          circles := putCircle st.circles circle2,
          nextId := st.nextId + 1 })

/-- `StorageService.createResource`: circle must exist, owner must be one
of its members; the new resource is available. -/
def createResource (st : MState) (circleId : Nat) (name description : String)
    (ownerId : Nat) : Except String MResource × MState :=
  match getCircle st circleId with
  | none => (.error ("Circle not found"), st)
  | some circ =>
    match circ.users.find? (fun u => u.id == ownerId) with
    | none => (.error ("not a member of circle"), st)
    | some _ =>
      let resource : MResource :=
        { id := st.nextId, name := name.trim, description := description.trim,
          ownerId := ownerId, circleId := circleId, isAvailable := true,
          currentBorrowerId := none }
      (.ok resource,
       { st with
          resources := putResource st.resources resource,
          nextId := st.nextId + 1 })

/-- `StorageService.deleteResource`: only the owner, and only while the
resource is not borrowed. -/
def deleteResource (st : MState) (resourceId userId : Nat) :
    Except String Bool × MState :=
  match getResource st resourceId with
  | none => (.error ("Resource not found"), st)
  | some resource =>
    if resource.ownerId ≠ userId then
      (.error ("Only the resource owner can delete this resource"), st)
    else if !resource.isAvailable then
      (.error ("Cannot delete a resource that is currently borrowed"), st)
    else
      (.ok true, { st with resources := st.resources.filter (fun r => r.id != resourceId) })

/-- `StorageService.createBorrowRequest`: resource exists and is
available, requester is not the owner, requester is a circle member, and
the same user has no pending request for the same resource yet. -/
def createBorrowRequest (st : MState) (resourceId requestedBy : Nat) :
    Except String MBorrowRequest × MState :=
  match getResource st resourceId with
  | none => (.error ("Resource not found"), st)
  | some resource =>
    if !resource.isAvailable then
      (.error ("Resource is not currently available for borrowing"), st)
    else if resource.ownerId == requestedBy then
      (.error ("Resource owners cannot borrow their own resources"), st)
    else
      match getCircle st resource.circleId with
      | none => (.error ("Circle not found"), st)
      | some circ =>
        match circ.users.find? (fun u => u.id == requestedBy) with
        | none => (.error ("not a member of circle"), st)
        | some _ =>
          match st.borrowRequests.find? (fun r =>
              r.resourceId == resourceId && r.requestedBy == requestedBy &&
              r.status == BorrowStatus.pending) with
          | some _ => (.error ("You already have a pending request for this resource"), st)
          | none =>
            let borrowRequest : MBorrowRequest :=
              { id := st.nextId, resourceId := resourceId, circleId := resource.circleId,
                requestedBy := requestedBy, status := .pending, respondedBy := none }
            (.ok borrowRequest,
             { st with
                borrowRequests := putRequest st.borrowRequests borrowRequest,
                nextId := st.nextId + 1 })

/-- `StorageService.respondToBorrowRequest`: the request must still be
pending and the responder must own the resource; approval marks the
resource borrowed. -/
def respondToBorrowRequest (st : MState) (requestId : Nat) (approved : Bool)
    (respondedBy : Nat) : Except String MBorrowRequest × MState :=
  match getRequest st requestId with
  | none => (.error ("Borrow request not found"), st)
  | some borrowRequest =>
    if borrowRequest.status ≠ BorrowStatus.pending then
      (.error ("Borrow request is no longer pending"), st)
    else
      match getResource st borrowRequest.resourceId with
      | none => (.error ("Resource not found"), st)
      | some resource =>
        if resource.ownerId ≠ respondedBy then
          (.error ("Only the resource owner can respond to borrow requests"), st)
        else
          let br2 := { borrowRequest with
            status := if approved then BorrowStatus.approved else BorrowStatus.denied,
            respondedBy := some respondedBy }
          let resources2 :=
            if approved then
              putResource st.resources
                { resource with
                    isAvailable := false,
                    currentBorrowerId := some borrowRequest.requestedBy }
            else st.resources
          (.ok br2,
           { st with
              resources := resources2,
              borrowRequests := putRequest st.borrowRequests br2 })

/-- `StorageService.borrowResource` (simplified direct borrow). -/
def borrowResource (st : MState) (resourceId borrowerId : Nat) :
    Except String MResource × MState :=
  match getResource st resourceId with
  | none => (.error ("Resource not found"), st)
  | some resource =>
    if !resource.isAvailable then
      (.error ("Resource is not currently available for borrowing"), st)
    else if resource.ownerId == borrowerId then
      (.error ("Resource owners cannot borrow their own resources"), st)
    else
      match getCircle st resource.circleId with
      | none => (.error ("Circle not found"), st)
      | some circ =>
        match circ.users.find? (fun u => u.id == borrowerId) with
        | none => (.error ("not a member of circle"), st)
        | some _ =>
          let resource2 :=
            { resource with isAvailable := false, currentBorrowerId := some borrowerId }
          (.ok resource2, { st with resources := putResource st.resources resource2 })

/-- `StorageService.returnResource` (simplified direct return). -/
def returnResource (st : MState) (resourceId borrowerId : Nat) :
    Except String MResource × MState :=
  match getResource st resourceId with
  | none => (.error ("Resource not found"), st)
  | some resource =>
    if resource.isAvailable then (.error ("Resource is not currently borrowed"), st)
    else if resource.currentBorrowerId ≠ some borrowerId then
      (.error ("Only the current borrower can return this resource"), st)
    else
      let resource2 := { resource with isAvailable := true, currentBorrowerId := none }
      (.ok resource2, { st with resources := putResource st.resources resource2 })

/-- `StorageService.returnResourceByRequest`: the request must be
approved, the returner must be the original requester, and the resource
must exist; marks the resource available and the request returned. -/
def returnResourceByRequest (st : MState) (requestId returnedBy : Nat) :
    Except String MBorrowRequest × MState :=
  match getRequest st requestId with
  | none => (.error ("Borrow request not found"), st)
  | some borrowRequest =>
    if borrowRequest.status ≠ BorrowStatus.approved then
      (.error ("Borrow request must be approved to be returned"), st)
    else if borrowRequest.requestedBy ≠ returnedBy then
      (.error ("Only the borrower can mark the resource as returned"), st)
    else
      match getResource st borrowRequest.resourceId with
      | none => (.error ("Resource not found"), st)
      | some resource =>
        let resource2 := { resource with isAvailable := true, currentBorrowerId := none }
        let br2 := { borrowRequest with status := BorrowStatus.returned }
        (.ok br2,
         { st with
            resources := putResource st.resources resource2,
            borrowRequests := putRequest st.borrowRequests br2 })

/-- `StorageService.cancelBorrowRequest`: the request must still be
pending and the canceller must be the original requester. -/
def cancelBorrowRequest (st : MState) (requestId cancelledBy : Nat) :
    Except String MBorrowRequest × MState :=
  match getRequest st requestId with
  | none => (.error ("Borrow request not found"), st)
  | some borrowRequest =>
    if borrowRequest.status ≠ BorrowStatus.pending then
      (.error ("Can only cancel pending requests"), st)
    else if borrowRequest.requestedBy ≠ cancelledBy then
      (.error ("Only the requester can cancel their own request"), st)
    else
      let br2 := { borrowRequest with
        status := BorrowStatus.cancelled,
        respondedBy := some cancelledBy }
      (.ok br2, { st with borrowRequests := putRequest st.borrowRequests br2 })

/-- Status stored for a request id, when present. -/
def statusOf (st : MState) (k : Nat) : Option BorrowStatus :=
  (getRequest st k).map (fun r => r.status)

/-- Original requester stored for a request id, when present. -/
def requesterOf (st : MState) (k : Nat) : Option Nat :=
  (getRequest st k).map (fun r => r.requestedBy)

/-- Owner of the resource a request points at, when both exist. -/
def resourceOwnerOf (st : MState) (k : Nat) : Option Nat :=
  (getRequest st k).bind (fun br => (getResource st br.resourceId).map (fun r => r.ownerId))

/-- The transition relation of the spec's mutex state machine. -/
def allowedTransition (a b : BorrowStatus) : Prop :=
  (a = BorrowStatus.pending ∧ b = BorrowStatus.approved) ∨
  (a = BorrowStatus.pending ∧ b = BorrowStatus.denied) ∨
  (a = BorrowStatus.pending ∧ b = BorrowStatus.cancelled) ∨
  (a = BorrowStatus.approved ∧ b = BorrowStatus.returned)

lemma any_of_find_eq_some {l : List MBorrowRequest} {p : MBorrowRequest → Bool}
    {x : MBorrowRequest} (h : l.find? p = some x) : l.any p = true := by
  rw [List.any_eq_true]
  exact ⟨x, List.mem_of_find?_eq_some h, List.find?_some h⟩

lemma isOk_ok {a : Type} (x : a) : (Except.ok x : Except String a).isOk = true := rfl

lemma isOk_error {a : Type} (e : String) : (Except.error e : Except String a).isOk = false := rfl

lemma find_map_update (l : List MBorrowRequest) (v br : MBorrowRequest)
    (h : l.find? (fun r => r.id == v.id) = some br) :
    (l.map (fun r => if r.id == v.id then v else r)).find?
      (fun r => r.id == v.id) = some v := by
  induction l with
  | nil => simp at h
  | cons a l ih =>
    by_cases ha : (a.id == v.id) = true
    · simp only [List.map_cons, ha, if_true]
      exact List.find?_cons_of_pos _ (by simp)
    · simp only [List.map_cons, ha, Bool.false_eq_true, if_false]
      rw [List.find?_cons_of_neg (p := fun (r : MBorrowRequest) => r.id == v.id) _ ha] at h
      rw [List.find?_cons_of_neg (p := fun (r : MBorrowRequest) => r.id == v.id) _ ha]
      exact ih h

/-- `Map.set` of an already-present request: a later `Map.get` of that key
yields the new record. -/
lemma find_putRequest (l : List MBorrowRequest) (v br : MBorrowRequest) (k : Nat)
    (hvk : v.id = k) (h : l.find? (fun r => r.id == k) = some br) :
    (putRequest l v).find? (fun r => r.id == k) = some v := by
  subst hvk
  unfold putRequest
  rw [if_pos (any_of_find_eq_some h)]
  exact find_map_update l v br h

/-- Characterization of `respondToBorrowRequest` used by the state-machine
and role-precondition claims. -/
lemma respond_all (st : MState) (reqId uid : Nat) (approved : Bool) :
    ((respondToBorrowRequest st reqId approved uid).1.isOk = true →
      statusOf st reqId = some BorrowStatus.pending ∧
      statusOf (respondToBorrowRequest st reqId approved uid).2 reqId =
        some (if approved then BorrowStatus.approved else BorrowStatus.denied) ∧
      resourceOwnerOf st reqId = some uid) ∧
    ((respondToBorrowRequest st reqId approved uid).1.isOk = false →
      (respondToBorrowRequest st reqId approved uid).2 = st) ∧
    (statusOf st reqId ≠ some BorrowStatus.pending →
      (respondToBorrowRequest st reqId approved uid).1.isOk = false) ∧
    (resourceOwnerOf st reqId ≠ some uid →
      (respondToBorrowRequest st reqId approved uid).1.isOk = false) := by
  unfold respondToBorrowRequest
  cases hbr : getRequest st reqId with
  | none =>
    simp [hbr, statusOf, resourceOwnerOf, isOk_error]
  | some br =>
    have hbr2 : st.borrowRequests.find? (fun r => r.id == reqId) = some br := hbr
    have hid : br.id = reqId := by
      have := List.find?_some hbr2
      simpa using this
    by_cases hst : br.status = BorrowStatus.pending
    · simp only [hst, ne_eq, not_true_eq_false, Bool.false_eq_true, if_false]
      cases hres : getResource st br.resourceId with
      | none =>
        simp [hbr, hres, statusOf, resourceOwnerOf, hst, isOk_error]
      | some res =>
        by_cases how : res.ownerId = uid
        · simp only [how, ne_eq, not_true_eq_false, Bool.false_eq_true, if_false]
          refine ⟨?_, ?_, ?_, ?_⟩
          · intro _
            refine ⟨by simp [statusOf, hbr, hst], ?_, by simp [resourceOwnerOf, hbr, hres, how]⟩
            simp only [statusOf, getRequest]
            rw [find_putRequest _ _ br reqId (by simpa using hid) hbr2]
            cases approved <;> simp
          · intro h
            rw [isOk_ok] at h
            exact absurd h (by decide)
          · intro h
            exact absurd (by simp [statusOf, hbr, hst]) h
          · intro h
            exact absurd (by simp [resourceOwnerOf, hbr, hres, how]) h
        · simp only [how, ne_eq, not_false_eq_true, if_true]
          refine ⟨?_, ?_, ?_, ?_⟩
          · intro h
            rw [isOk_error] at h
            exact absurd h (by decide)
          · intro _
            trivial
          · intro _
            exact isOk_error _
          · intro _
            exact isOk_error _
    · simp only [hst, ne_eq, not_false_eq_true, if_true]
      refine ⟨?_, ?_, ?_, ?_⟩
      · intro h
        rw [isOk_error] at h
        exact absurd h (by decide)
      · intro _
        trivial
      · intro _
        exact isOk_error _
      · intro _
        exact isOk_error _

/-- Characterization of `returnResourceByRequest`. -/
lemma returnByRequest_all (st : MState) (reqId uid : Nat) :
    ((returnResourceByRequest st reqId uid).1.isOk = true →
      statusOf st reqId = some BorrowStatus.approved ∧
      statusOf (returnResourceByRequest st reqId uid).2 reqId =
        some BorrowStatus.returned ∧
      requesterOf st reqId = some uid) ∧
    ((returnResourceByRequest st reqId uid).1.isOk = false →
      (returnResourceByRequest st reqId uid).2 = st) ∧
    (statusOf st reqId ≠ some BorrowStatus.approved →
      (returnResourceByRequest st reqId uid).1.isOk = false) ∧
    (requesterOf st reqId ≠ some uid →
      (returnResourceByRequest st reqId uid).1.isOk = false) := by
  unfold returnResourceByRequest
  cases hbr : getRequest st reqId with
  | none =>
    simp [hbr, statusOf, requesterOf, isOk_error]
  | some br =>
    have hbr2 : st.borrowRequests.find? (fun r => r.id == reqId) = some br := hbr
    have hid : br.id = reqId := by
      have := List.find?_some hbr2
      simpa using this
    by_cases hst : br.status = BorrowStatus.approved
    · simp only [hst, ne_eq, not_true_eq_false, Bool.false_eq_true, if_false]
      by_cases hwho : br.requestedBy = uid
      · simp only [hwho, ne_eq, not_true_eq_false, Bool.false_eq_true, if_false]
        cases hres : getResource st br.resourceId with
        | none =>
          refine ⟨?_, ?_, ?_, ?_⟩
          · intro h
            rw [isOk_error] at h
            exact absurd h (by decide)
          · intro _
            trivial
          · intro _
            exact isOk_error _
          · intro _
            exact isOk_error _
        | some res =>
          refine ⟨?_, ?_, ?_, ?_⟩
          · intro _
            refine ⟨by simp [statusOf, hbr, hst], ?_, by simp [requesterOf, hbr, hwho]⟩
            simp only [statusOf, getRequest]
            rw [find_putRequest _ _ br reqId (by simpa using hid) hbr2]
            simp
          · intro h
            rw [isOk_ok] at h
            exact absurd h (by decide)
          · intro h
            exact absurd (by simp [statusOf, hbr, hst]) h
          · intro h
            exact absurd (by simp [requesterOf, hbr, hwho]) h
      · simp only [hwho, ne_eq, not_false_eq_true, if_true]
        refine ⟨?_, ?_, ?_, ?_⟩
        · intro h
          rw [isOk_error] at h
          exact absurd h (by decide)
        · intro _
          trivial
        · intro _
          exact isOk_error _
        · intro _
          exact isOk_error _
    · simp only [hst, ne_eq, not_false_eq_true, if_true]
      refine ⟨?_, ?_, ?_, ?_⟩
      · intro h
        rw [isOk_error] at h
        exact absurd h (by decide)
      · intro _
        trivial
      · intro _
        exact isOk_error _
      · intro _
        exact isOk_error _

/-- Characterization of `cancelBorrowRequest`. -/
lemma cancel_all (st : MState) (reqId uid : Nat) :
    ((cancelBorrowRequest st reqId uid).1.isOk = true →
      statusOf st reqId = some BorrowStatus.pending ∧
      statusOf (cancelBorrowRequest st reqId uid).2 reqId =
        some BorrowStatus.cancelled ∧
      requesterOf st reqId = some uid) ∧
    ((cancelBorrowRequest st reqId uid).1.isOk = false →
      (cancelBorrowRequest st reqId uid).2 = st) ∧
    (statusOf st reqId ≠ some BorrowStatus.pending →
      (cancelBorrowRequest st reqId uid).1.isOk = false) ∧
    (requesterOf st reqId ≠ some uid →
      (cancelBorrowRequest st reqId uid).1.isOk = false) := by
  unfold cancelBorrowRequest
  cases hbr : getRequest st reqId with
  | none =>
    simp [hbr, statusOf, requesterOf, isOk_error]
  | some br =>
    have hbr2 : st.borrowRequests.find? (fun r => r.id == reqId) = some br := hbr
    have hid : br.id = reqId := by
      have := List.find?_some hbr2
      simpa using this
    by_cases hst : br.status = BorrowStatus.pending
    · simp only [hst, ne_eq, not_true_eq_false, Bool.false_eq_true, if_false]
      by_cases hwho : br.requestedBy = uid
      · simp only [hwho, ne_eq, not_true_eq_false, Bool.false_eq_true, if_false]
        refine ⟨?_, ?_, ?_, ?_⟩
        · intro _
          refine ⟨by simp [statusOf, hbr, hst], ?_, by simp [requesterOf, hbr, hwho]⟩
          simp only [statusOf, getRequest]
          rw [find_putRequest _ _ br reqId (by simpa using hid) hbr2]
          simp
        · intro h
          rw [isOk_ok] at h
          exact absurd h (by decide)
        · intro h
          exact absurd (by simp [statusOf, hbr, hst]) h
        · intro h
          exact absurd (by simp [requesterOf, hbr, hwho]) h
      · simp only [hwho, ne_eq, not_false_eq_true, if_true]
        refine ⟨?_, ?_, ?_, ?_⟩
        · intro h
          rw [isOk_error] at h
          exact absurd h (by decide)
        · intro _
          trivial
        · intro _
          exact isOk_error _
        · intro _
          exact isOk_error _
    · simp only [hst, ne_eq, not_false_eq_true, if_true]
      refine ⟨?_, ?_, ?_, ?_⟩
      · intro h
        rw [isOk_error] at h
        exact absurd h (by decide)
      · intro _
        trivial
      · intro _
        exact isOk_error _
      · intro _
        exact isOk_error _

/-- C8: in the mutex borrow-request workflow every status change follows
the state machine pending→approved/denied/cancelled, approved→returned:
each of the three transition operations succeeds only from the required
source status, produces only the machine's target status, and on any error
leaves the store unchanged; an operation applied to a request in the wrong
status always fails. -/
theorem borrow_state_machine (st : MState) (reqId uid : Nat) (approved : Bool) :
    ((respondToBorrowRequest st reqId approved uid).1.isOk = true →
      statusOf st reqId = some BorrowStatus.pending ∧
      statusOf (respondToBorrowRequest st reqId approved uid).2 reqId =
        some (if approved then BorrowStatus.approved else BorrowStatus.denied) ∧
      allowedTransition BorrowStatus.pending
        (if approved then BorrowStatus.approved else BorrowStatus.denied)) ∧
    ((respondToBorrowRequest st reqId approved uid).1.isOk = false →
      (respondToBorrowRequest st reqId approved uid).2 = st) ∧
    (statusOf st reqId ≠ some BorrowStatus.pending →
      (respondToBorrowRequest st reqId approved uid).1.isOk = false) ∧
    ((returnResourceByRequest st reqId uid).1.isOk = true →
      statusOf st reqId = some BorrowStatus.approved ∧
      statusOf (returnResourceByRequest st reqId uid).2 reqId =
        some BorrowStatus.returned ∧
      allowedTransition BorrowStatus.approved BorrowStatus.returned) ∧
    ((returnResourceByRequest st reqId uid).1.isOk = false →
      (returnResourceByRequest st reqId uid).2 = st) ∧
    (statusOf st reqId ≠ some BorrowStatus.approved →
      (returnResourceByRequest st reqId uid).1.isOk = false) ∧
    ((cancelBorrowRequest st reqId uid).1.isOk = true →
      statusOf st reqId = some BorrowStatus.pending ∧
      statusOf (cancelBorrowRequest st reqId uid).2 reqId =
        some BorrowStatus.cancelled ∧
      allowedTransition BorrowStatus.pending BorrowStatus.cancelled) ∧
    ((cancelBorrowRequest st reqId uid).1.isOk = false →
      (cancelBorrowRequest st reqId uid).2 = st) ∧
    (statusOf st reqId ≠ some BorrowStatus.pending →
      (cancelBorrowRequest st reqId uid).1.isOk = false) := by
  obtain ⟨r1, r2, r3, _⟩ := respond_all st reqId uid approved
  obtain ⟨t1, t2, t3, _⟩ := returnByRequest_all st reqId uid
  obtain ⟨c1, c2, c3, _⟩ := cancel_all st reqId uid
  refine ⟨?_, r2, r3, ?_, t2, t3, ?_, c2, c3⟩
  · intro h
    obtain ⟨ha, hb, _⟩ := r1 h
    refine ⟨ha, hb, ?_⟩
    cases approved <;> simp [allowedTransition]
  · intro h
    obtain ⟨ha, hb, _⟩ := t1 h
    exact ⟨ha, hb, Or.inr (Or.inr (Or.inr ⟨rfl, rfl⟩))⟩
  · intro h
    obtain ⟨ha, hb, _⟩ := c1 h
    exact ⟨ha, hb, Or.inr (Or.inr (Or.inl ⟨rfl, rfl⟩))⟩

/-- A sample store: circle 1 with owner (user 2) and borrower (user 3),
resource 4 owned by user 2, and a pending borrow request 5 by user 3. -/
def mutexSample : MState :=
  { circles := [⟨1, "c", [⟨2, "owner"⟩, ⟨3, "borrower"⟩], 2⟩],
    users := [⟨2, "owner"⟩, ⟨3, "borrower"⟩],
    resources := [⟨4, "drill", "a drill", 2, 1, true, none⟩],
    borrowRequests := [⟨5, 4, 1, 3, BorrowStatus.pending, none⟩],
    nextId := 6 }

/-- Witness for C8: approving the sample pending request succeeds and the
stored status becomes `approved`; returning the still-pending request
fails. -/
theorem borrow_state_machine_witness :
    statusOf (respondToBorrowRequest mutexSample 5 true 2).2 5 =
      some BorrowStatus.approved ∧
    (returnResourceByRequest mutexSample 5 3).1.isOk = false :=
  ⟨((borrow_state_machine mutexSample 5 2 true).1 (by decide)).2.1,
   (borrow_state_machine mutexSample 5 3 true).2.2.2.2.2.1 (by decide)⟩

/-- C9: role preconditions of the mutex workflow: a successful
approve/deny is by the resource owner, a successful return or cancel is by
the original requester, and any other actor's attempt fails with an error
and leaves the store unchanged. -/
theorem borrow_role_preconditions (st : MState) (reqId uid : Nat) (approved : Bool) :
    ((respondToBorrowRequest st reqId approved uid).1.isOk = true →
      resourceOwnerOf st reqId = some uid) ∧
    (resourceOwnerOf st reqId ≠ some uid →
      (respondToBorrowRequest st reqId approved uid).1.isOk = false ∧
      (respondToBorrowRequest st reqId approved uid).2 = st) ∧
    ((returnResourceByRequest st reqId uid).1.isOk = true →
      requesterOf st reqId = some uid) ∧
    (requesterOf st reqId ≠ some uid →
      (returnResourceByRequest st reqId uid).1.isOk = false ∧
      (returnResourceByRequest st reqId uid).2 = st) ∧
    ((cancelBorrowRequest st reqId uid).1.isOk = true →
      requesterOf st reqId = some uid) ∧
    (requesterOf st reqId ≠ some uid →
      (cancelBorrowRequest st reqId uid).1.isOk = false ∧
      (cancelBorrowRequest st reqId uid).2 = st) := by
  obtain ⟨r1, r2, _, r4⟩ := respond_all st reqId uid approved
  obtain ⟨t1, t2, _, t4⟩ := returnByRequest_all st reqId uid
  obtain ⟨c1, c2, _, c4⟩ := cancel_all st reqId uid
  exact ⟨fun h => (r1 h).2.2, fun h => ⟨r4 h, r2 (r4 h)⟩,
         fun h => (t1 h).2.2, fun h => ⟨t4 h, t2 (t4 h)⟩,
         fun h => (c1 h).2.2, fun h => ⟨c4 h, c2 (c4 h)⟩⟩

/-- Witness for C9: user 3 (not the owner) cannot approve the sample
request, and user 2 (not the requester) cannot cancel it; both leave the
store unchanged. -/
theorem borrow_role_preconditions_witness :
    ((respondToBorrowRequest mutexSample 5 true 3).1.isOk = false ∧
      (respondToBorrowRequest mutexSample 5 true 3).2 = mutexSample) ∧
    ((cancelBorrowRequest mutexSample 5 2).1.isOk = false ∧
      (cancelBorrowRequest mutexSample 5 2).2 = mutexSample) :=
  ⟨(borrow_role_preconditions mutexSample 5 3 true).2.1 (by decide),
   (borrow_role_preconditions mutexSample 5 2 true).2.2.2.2.2 (by decide)⟩

/-- The C10 invariant: no two stored requests with the same resource and
the same requester are both pending. -/
def PendingUnique (l : List MBorrowRequest) : Prop :=
  List.Pairwise (fun r1 r2 =>
    ¬(r1.resourceId = r2.resourceId ∧ r1.requestedBy = r2.requestedBy ∧
      r1.status = BorrowStatus.pending ∧ r2.status = BorrowStatus.pending)) l

/-- Auxiliary inductive invariant: stored request ids are below the
fresh-id counter, and the pending-uniqueness property holds. -/
def MutexInv (st : MState) : Prop :=
  (∀ r ∈ st.borrowRequests, r.id < st.nextId) ∧ PendingUnique st.borrowRequests

lemma mutexInv_of_untouched {st st' : MState} (h : MutexInv st)
    (hreq : st'.borrowRequests = st.borrowRequests)
    (hn : st.nextId ≤ st'.nextId) : MutexInv st' := by
  obtain ⟨hb, hp⟩ := h
  refine ⟨?_, ?_⟩
  · intro r hr
    rw [hreq] at hr
    exact lt_of_lt_of_le (hb r hr) hn
  · rw [hreq]
    exact hp

/-- `Map.set` of a present request whose new status is not pending keeps
the invariant. -/
lemma mutexInv_update_nonpending {st st' : MState} {v : MBorrowRequest}
    (h : MutexInv st)
    (hreq : st'.borrowRequests = putRequest st.borrowRequests v)
    (hn : st.nextId ≤ st'.nextId)
    (hv : v.status ≠ BorrowStatus.pending)
    (hfound : st.borrowRequests.any (fun r => r.id == v.id) = true) :
    MutexInv st' := by
  obtain ⟨hb, hp⟩ := h
  have hput : putRequest st.borrowRequests v =
      st.borrowRequests.map (fun r => if r.id == v.id then v else r) := by
    unfold putRequest
    rw [if_pos hfound]
  refine ⟨?_, ?_⟩
  · intro r hr
    rw [hreq, hput, List.mem_map] at hr
    obtain ⟨y, hy, hfy⟩ := hr
    subst hfy
    by_cases hyid : (y.id == v.id) = true
    · simp only [hyid, if_true]
      have : v.id = y.id := by
        have h2 : y.id = v.id := by simpa using hyid
        exact h2.symm
      rw [this]
      exact lt_of_lt_of_le (hb y hy) hn
    · simp only [hyid, Bool.false_eq_true, if_false]
      exact lt_of_lt_of_le (hb y hy) hn
  · rw [hreq, hput]
    unfold PendingUnique at hp ⊢
    rw [List.pairwise_map]
    refine hp.imp ?_
    intro a b hab hcon
    obtain ⟨h1, h2, h3, h4⟩ := hcon
    by_cases haid : (a.id == v.id) = true
    · simp only [haid, if_true] at h3
      exact hv h3
    · simp only [haid, Bool.false_eq_true, if_false] at h1 h2 h3
      by_cases hbid : (b.id == v.id) = true
      · simp only [hbid, if_true] at h4
        exact hv h4
      · simp only [hbid, Bool.false_eq_true, if_false] at h1 h2 h4
        exact hab ⟨h1, h2, h3, h4⟩

/-- Creating a borrow request with a fresh id after the no-pending-pair
guard keeps the invariant. -/
lemma mutexInv_create_append {st st' : MState} {v : MBorrowRequest}
    (h : MutexInv st)
    (hreq : st'.borrowRequests = putRequest st.borrowRequests v)
    (hn : st'.nextId = st.nextId + 1)
    (hvid : v.id = st.nextId)
    (hguard : st.borrowRequests.find? (fun r =>
        r.resourceId == v.resourceId && r.requestedBy == v.requestedBy &&
        r.status == BorrowStatus.pending) = none) :
    MutexInv st' := by
  obtain ⟨hb, hp⟩ := h
  have hnotin : st.borrowRequests.any (fun r => r.id == v.id) = false := by
    rw [List.any_eq_false]
    intro x hx
    have := hb x hx
    simp only [hvid, beq_iff_eq]
    omega
  have hput : putRequest st.borrowRequests v = st.borrowRequests ++ [v] := by
    unfold putRequest
    rw [hnotin]
    simp
  refine ⟨?_, ?_⟩
  · intro r hr
    rw [hreq, hput, List.mem_append] at hr
    cases hr with
    | inl hmem =>
      have := hb r hmem
      omega
    | inr hmem =>
      simp only [List.mem_singleton] at hmem
      subst hmem
      omega
  · rw [hreq, hput]
    unfold PendingUnique at hp ⊢
    rw [List.pairwise_append]
    refine ⟨hp, by simp, ?_⟩
    intro a ha b hbmem
    simp only [List.mem_singleton] at hbmem
    subst hbmem
    intro hcon
    obtain ⟨h1, h2, h3, _⟩ := hcon
    have := (List.find?_eq_none.mp hguard) a ha
    apply this
    simp [h1, h2, h3]

/-- One public `StorageService` operation, applied with any arguments. -/
inductive MStep : MState → MState → Prop where
  | circleStep (st : MState) (name creatorName : String) :
      MStep st (createCircle st name creatorName).2
  | addUserStep (st : MState) (circleId : Nat) (userName : String) :
      MStep st (addUserToCircle st circleId userName).2
  | resourceStep (st : MState) (circleId : Nat) (name description : String) (ownerId : Nat) :
      MStep st (createResource st circleId name description ownerId).2
  | deleteStep (st : MState) (resourceId userId : Nat) :
      MStep st (deleteResource st resourceId userId).2
  | createReqStep (st : MState) (resourceId requestedBy : Nat) :
      MStep st (createBorrowRequest st resourceId requestedBy).2
  | respondStep (st : MState) (requestId : Nat) (approved : Bool) (uid : Nat) :
      MStep st (respondToBorrowRequest st requestId approved uid).2
  | borrowStep (st : MState) (resourceId borrowerId : Nat) :
      MStep st (borrowResource st resourceId borrowerId).2
  | directReturnStep (st : MState) (resourceId borrowerId : Nat) :
      MStep st (returnResource st resourceId borrowerId).2
  | returnReqStep (st : MState) (requestId returnedBy : Nat) :
      MStep st (returnResourceByRequest st requestId returnedBy).2
  | cancelStep (st : MState) (requestId cancelledBy : Nat) :
      MStep st (cancelBorrowRequest st requestId cancelledBy).2

/-- Any sequential interleaving of the store's operations. -/
def MReachable : MState → MState → Prop :=
  Relation.ReflTransGen MStep

/-- The store at server start: all four maps empty. -/
def emptyMState : MState :=
  { circles := [], users := [], resources := [], borrowRequests := [], nextId := 0 }

lemma mstep_preserves_inv {st st' : MState} (hstep : MStep st st')
    (h : MutexInv st) : MutexInv st' := by
  cases hstep with
  | circleStep name creatorName =>
    exact mutexInv_of_untouched h rfl (Nat.le_add_right st.nextId 2)
  | addUserStep circleId userName =>
    unfold addUserToCircle
    split
    · exact h
    · split
      · exact h
      · exact mutexInv_of_untouched h rfl (Nat.le_add_right st.nextId 1)
  | resourceStep circleId name description ownerId =>
    unfold createResource
    split
    · exact h
    · split
      · exact h
      · exact mutexInv_of_untouched h rfl (Nat.le_add_right st.nextId 1)
  | deleteStep resourceId userId =>
    unfold deleteResource
    split
    · exact h
    · split
      · exact h
      · split
        · exact h
        · exact mutexInv_of_untouched h rfl (le_refl _)
  | createReqStep resourceId requestedBy =>
    unfold createBorrowRequest
    split
    · exact h
    · split
      · exact h
      · split
        · exact h
        · split
          · exact h
          · split
            · exact h
            · split
              · exact h
              · rename_i hg
                exact mutexInv_create_append h rfl rfl rfl hg
  | respondStep requestId approved uid =>
    unfold respondToBorrowRequest
    split
    · exact h
    · rename_i br hbr
      split
      · exact h
      · split
        · exact h
        · split
          · exact h
          · have hbr2 : st.borrowRequests.find? (fun r => r.id == requestId) = some br := hbr
            have hid : br.id = requestId := by simpa using List.find?_some hbr2
            refine mutexInv_update_nonpending h rfl (le_refl _) ?_ ?_
            · cases approved <;> simp
            · simpa [hid] using any_of_find_eq_some hbr2
  | borrowStep resourceId borrowerId =>
    unfold borrowResource
    split
    · exact h
    · split
      · exact h
      · split
        · exact h
        · split
          · exact h
          · split
            · exact h
            · exact mutexInv_of_untouched h rfl (le_refl _)
  | directReturnStep resourceId borrowerId =>
    unfold returnResource
    split
    · exact h
    · split
      · exact h
      · split
        · exact h
        · exact mutexInv_of_untouched h rfl (le_refl _)
  | returnReqStep requestId returnedBy =>
    unfold returnResourceByRequest
    split
    · exact h
    · rename_i br hbr
      split
      · exact h
      · split
        · exact h
        · split
          · exact h
          · have hbr2 : st.borrowRequests.find? (fun r => r.id == requestId) = some br := hbr
            have hid : br.id = requestId := by simpa using List.find?_some hbr2
            refine mutexInv_update_nonpending h rfl (le_refl _) ?_ ?_
            · simp
            · simpa [hid] using any_of_find_eq_some hbr2
  | cancelStep requestId cancelledBy =>
    unfold cancelBorrowRequest
    split
    · exact h
    · rename_i br hbr
      split
      · exact h
      · split
        · exact h
        · have hbr2 : st.borrowRequests.find? (fun r => r.id == requestId) = some br := hbr
          have hid : br.id = requestId := by simpa using List.find?_some hbr2
          refine mutexInv_update_nonpending h rfl (le_refl _) ?_ ?_
          · simp
          · simpa [hid] using any_of_find_eq_some hbr2

/-- C10: in every store state reachable from server start by any sequence
of `StorageService` operations, at most one borrow request per
(resource, requesting user) pair is pending — `createBorrowRequest`
rejects a duplicate pending request and creates nothing. -/
theorem at_most_one_pending_per_pair (st : MState)
    (hreach : MReachable emptyMState st) : PendingUnique st.borrowRequests := by
  suffices hinv : MutexInv st from hinv.2
  induction hreach with
  | refl =>
    refine ⟨?_, List.Pairwise.nil⟩
    intro r hr
    exact absurd hr (List.not_mem_nil r)
  | tail _ hstep ih => exact mstep_preserves_inv hstep ih

/-- Witness for C10: create a circle, add a member, register a resource
and file one borrow request; the resulting store satisfies the
invariant. -/
theorem at_most_one_pending_per_pair_witness :
    PendingUnique (createBorrowRequest (createResource (addUserToCircle
      (createCircle emptyMState "c" "a").2 1 "b").2 1 "drill" "d" 0).2
        3 2).2.borrowRequests :=
  at_most_one_pending_per_pair _
    (Relation.ReflTransGen.head (MStep.circleStep emptyMState "c" "a")
      (Relation.ReflTransGen.head (MStep.addUserStep _ 1 "b")
        (Relation.ReflTransGen.head (MStep.resourceStep _ 1 "drill" "d" 0)
          (Relation.ReflTransGen.single (MStep.createReqStep _ 3 2)))))

end CircleMutex
